import Mathlib

/-!
Shallow embedding of the jenkins-mcp repository (Go sources
`mcp-server/main.go` and `mcp-client/main.go`) and proofs about its
tool-gateway handlers and prompt-bridge directive parsing.

Go strings and byte slices are modelled as `List Char`; Go `map[string]T`
values decoded from JSON are modelled as association lists in insertion
order, with lookups taking the last binding for a key (Go map assignment
overwrites, so the last duplicate JSON key wins).
-/

namespace JenkinsMCP

/-! ## Go string helpers

`goIsSpace` covers the ASCII white space characters recognised by
`unicode.IsSpace` (the sources never exercise the non-ASCII ones). -/

def goIsSpace (c : Char) : Bool :=
  c == ' ' || c == '\t' || c == '\n' || c == Char.ofNat 11 || c == Char.ofNat 12 || c == '\r'

/-- Model of Go `strings.TrimSpace`. -/
def trimSpace (s : List Char) : List Char :=
  ((s.dropWhile goIsSpace).reverse.dropWhile goIsSpace).reverse

/-- Model of Go `strings.SplitN(s, " ", 2)` restricted to the way the
client uses it: `none` when `s` has no space (fewer than two parts),
otherwise the part before the first space and the remainder. -/
def splitOnceSpace : List Char → Option (List Char × List Char)
  | [] => none
  | c :: cs =>
    if c == ' ' then some ([], cs)
    else
      match splitOnceSpace cs with
      | none => none
      | some (a, b) => some (c :: a, b)

/-- Index of the first occurrence of `c`, as in Go `strings.Index`
(`none` for Go's `-1`). -/
def firstIdx (c : Char) : List Char → Option Nat
  | [] => none
  | x :: xs => if x == c then some 0 else (firstIdx c xs).map (· + 1)

/-- Index of the last occurrence of `c`, as in Go `strings.LastIndex`. -/
def lastIdx (c : Char) (s : List Char) : Option Nat :=
  match firstIdx c s.reverse with
  | none => none
  | some i => some (s.length - 1 - i)

def braceOpen : Char := Char.ofNat 123

def braceClose : Char := Char.ofNat 125

/-- The brace extraction step of `parseToolCall` (client `main.go`):
`start := strings.Index(rawParams, openBrace)`, `end :=
strings.LastIndex(rawParams, closeBrace)`, failing when either is absent
or `end <= start`, and otherwise slicing `rawParams[start : end+1]`. -/
def extractBraces (s : List Char) : Option (List Char) :=
  match firstIdx braceOpen s, lastIdx braceClose s with
  | some st, some en => if st < en then some ((s.drop st).take (en - st + 1)) else none
  | _, _ => none

/-- Fuel-driven core of `replaceAll`; the fuel is the input length, which
suffices because every step consumes at least one character (all callers
pass a non-empty pattern). -/
def replaceAllAux (pat rep : List Char) : Nat → List Char → List Char
  | _, [] => []
  | 0, s => s
  | Nat.succ n, c :: cs =>
    if pat.isPrefixOf (c :: cs) then rep ++ replaceAllAux pat rep n ((c :: cs).drop pat.length)
    else c :: replaceAllAux pat rep n cs

/-- Model of Go `strings.ReplaceAll` for a non-empty pattern: leftmost,
non-overlapping, scanning continues after each replacement. -/
def replaceAll (pat rep s : List Char) : List Char :=
  replaceAllAux pat rep s.length s

/-- Substring test (used only to state properties about produced error
messages, mirroring Go `strings.Contains`). -/
def containsSub (hay needle : List Char) : Bool :=
  match hay with
  | [] => needle.isEmpty
  | _ :: t => needle.isPrefixOf hay || containsSub t needle

/-! ## Values decoded by Go `encoding/json` into `any`

`num m e` is a JSON number with decimal value `m * 10 ^ e`; Go decodes
JSON numbers to `float64`, and the handful of conversions the sources
perform on them (`int(v)`, equality on small integers) agree with the
exact decimal value for every input the repository handles. `int n` is a
Go `int` stored in an `any` (never produced by JSON decoding, but the
bridge's analyze branch builds one). -/

inductive GoVal where
  | str (s : List Char)
  | num (m : Int) (e : Int)
  | int (n : Int)
  | bool (b : Bool)
  | null
  | arr (xs : List GoVal)
  | obj (kvs : List (List Char × GoVal))

/-- Lookup in a decoded JSON object, last binding wins (Go map semantics
under duplicate keys). -/
def goMapGet (kvs : List (List Char × GoVal)) (k : List Char) : Option GoVal :=
  match kvs.reverse.find? (fun kv => kv.1 == k) with
  | none => none
  | some kv => some kv.2

/-- Go `int(v)` truncation (toward zero) of the decimal value `m * 10^e`. -/
def goFloatToInt (m e : Int) : Int :=
  if 0 ≤ e then m * 10 ^ e.toNat else Int.tdiv m (10 ^ (-e).toNat)

/-! ## JSON parser (the subset of Go `encoding/json` the sources rely on) -/

/-- JSON inter-token white space as accepted by the Go scanner. -/
def jsonIsSpace (c : Char) : Bool :=
  c == ' ' || c == '\t' || c == '\r' || c == '\n'

def hexVal (c : Char) : Option Nat :=
  if 48 ≤ c.toNat ∧ c.toNat ≤ 57 then some (c.toNat - 48)
  else if 97 ≤ c.toNat ∧ c.toNat ≤ 102 then some (c.toNat - 87)
  else if 65 ≤ c.toNat ∧ c.toNat ≤ 70 then some (c.toNat - 55)
  else none

def parseU4 (a b c d : Char) : Option Nat :=
  match hexVal a, hexVal b, hexVal c, hexVal d with
  | some x, some y, some z, some w => some (((x * 16 + y) * 16 + z) * 16 + w)
  | _, _, _, _ => none

def uReplacement : Char := Char.ofNat 0xFFFD

/-- Fuel-driven string body parser; the fuel is the input length, which
suffices because every recursive call consumes at least one character. -/
def parseJStringAux : Nat → List Char → Option (List Char × List Char)
  | 0, _ => none
  | Nat.succ _, [] => none
  | Nat.succ n, c :: rest =>
    if c == '"' then some ([], rest)
    else if c == '\\' then
      match rest with
      | [] => none
      | e :: rest2 =>
        if e == '"' || e == '\\' || e == '/' then
          (parseJStringAux n rest2).map (fun p => (e :: p.1, p.2))
        else if e == 'b' then (parseJStringAux n rest2).map (fun p => (Char.ofNat 8 :: p.1, p.2))
        else if e == 'f' then (parseJStringAux n rest2).map (fun p => (Char.ofNat 12 :: p.1, p.2))
        else if e == 'n' then (parseJStringAux n rest2).map (fun p => ('\n' :: p.1, p.2))
        else if e == 'r' then (parseJStringAux n rest2).map (fun p => ('\r' :: p.1, p.2))
        else if e == 't' then (parseJStringAux n rest2).map (fun p => ('\t' :: p.1, p.2))
        else if e == 'u' then
          match rest2 with
          | a :: b :: c2 :: d :: rest3 =>
            match parseU4 a b c2 d with
            | none => none
            | some code =>
              if 0xD800 ≤ code ∧ code < 0xDC00 then
                match rest3 with
                | '\\' :: 'u' :: a2 :: b2 :: c3 :: d2 :: rest4 =>
                  match parseU4 a2 b2 c3 d2 with
                  | some code2 =>
                    if 0xDC00 ≤ code2 ∧ code2 < 0xE000 then
                      (parseJStringAux n rest4).map (fun p =>
                        (Char.ofNat (0x10000 + (code - 0xD800) * 0x400 + (code2 - 0xDC00)) :: p.1, p.2))
                    else (parseJStringAux n rest3).map (fun p => (uReplacement :: p.1, p.2))
                  | none => (parseJStringAux n rest3).map (fun p => (uReplacement :: p.1, p.2))
                | _ => (parseJStringAux n rest3).map (fun p => (uReplacement :: p.1, p.2))
              else if 0xDC00 ≤ code ∧ code < 0xE000 then
                (parseJStringAux n rest3).map (fun p => (uReplacement :: p.1, p.2))
              else (parseJStringAux n rest3).map (fun p => (Char.ofNat code :: p.1, p.2))
          | _ => none
        else none
    else if c.toNat < 32 then none
    else (parseJStringAux n rest).map (fun p => (c :: p.1, p.2))

/-- String body parser: input starts just after the opening quote;
returns the decoded content and the input after the closing quote.
Escapes and the surrogate-pair handling follow Go's `unquote`:
a malformed escape is an error, an unpaired surrogate becomes U+FFFD. -/
def parseJString (s : List Char) : Option (List Char × List Char) :=
  parseJStringAux s.length s

def digitsVal (ds : List Char) : Nat :=
  ds.foldl (fun a c => a * 10 + (c.toNat - 48)) 0

def spanDigits (s : List Char) : List Char × List Char :=
  (s.takeWhile Char.isDigit, s.dropWhile Char.isDigit)

/-- Number parser following the JSON grammar the Go scanner enforces:
optional minus, `0` or a nonzero-led digit run, optional fraction with at
least one digit, optional exponent with at least one digit. Returns the
decimal mantissa and power-of-ten exponent and the remaining input. -/
def parseJNumber (s0 : List Char) : Option (Int × Int × List Char) :=
  let signSplit : Bool × List Char :=
    match s0 with
    | c :: r => if c == '-' then (true, r) else (false, s0)
    | [] => (false, s0)
  let neg := signSplit.1
  let s1 := signSplit.2
  match s1 with
  | [] => none
  | c :: r =>
    if c.isDigit = false then none
    else
      let ip : List Char × List Char := if c == '0' then ([c], r) else spanDigits s1
      let idigits := ip.1
      let s2 := ip.2
      let fracStep : Option (List Char × List Char) :=
        match s2 with
        | '.' :: r2 =>
          let fp := spanDigits r2
          if fp.1.isEmpty then none else some fp
        | _ => some ([], s2)
      match fracStep with
      | none => none
      | some (fdigits, s3) =>
        let expStep : Option (Int × List Char) :=
          match s3 with
          | c3 :: r3 =>
            if c3 == 'e' || c3 == 'E' then
              let es : Int × List Char :=
                match r3 with
                | c4 :: r5 =>
                  if c4 == '+' then (1, r5) else if c4 == '-' then (-1, r5) else (1, r3)
                | [] => (1, r3)
              let ep := spanDigits es.2
              if ep.1.isEmpty then none else some (es.1 * (digitsVal ep.1 : Int), ep.2)
            else some (0, s3)
          | [] => some (0, s3)
        match expStep with
        | none => none
        | some (ex, s6) =>
          let mAbs : Nat := digitsVal (idigits ++ fdigits)
          let m : Int := if neg then -(mAbs : Int) else (mAbs : Int)
          some (m, ex - (fdigits.length : Int), s6)

mutual

/-- Value parser: fuel-driven recursive descent over the JSON grammar. -/
def parseValue : Nat → List Char → Option (GoVal × List Char)
  | 0, _ => none
  | Nat.succ n, s0 =>
    let s := s0.dropWhile jsonIsSpace
    match s with
    | [] => none
    | c :: rest =>
      if c == braceOpen then parseObjBody n rest
      else if c == '[' then parseArrBody n rest
      else if c == '"' then (parseJString rest).map (fun p => (GoVal.str p.1, p.2))
      else if ("true").data.isPrefixOf s then some (GoVal.bool true, s.drop 4)
      else if ("false").data.isPrefixOf s then some (GoVal.bool false, s.drop 5)
      else if ("null").data.isPrefixOf s then some (GoVal.null, s.drop 4)
      else
        match parseJNumber s with
        | some (m, e, rest2) => some (GoVal.num m e, rest2)
        | none => none

/-- Object parser, input just after the opening brace. -/
def parseObjBody : Nat → List Char → Option (GoVal × List Char)
  | 0, _ => none
  | Nat.succ n, s0 =>
    let s := s0.dropWhile jsonIsSpace
    match s with
    | [] => none
    | c :: rest =>
      if c == braceClose then some (GoVal.obj [], rest) else parseMembers n [] s

/-- Member list parser: a quoted key, a colon, a value, then a comma
(more members) or the closing brace. -/
def parseMembers : Nat → List (List Char × GoVal) → List Char → Option (GoVal × List Char)
  | 0, _, _ => none
  | Nat.succ n, acc, s0 =>
    let s := s0.dropWhile jsonIsSpace
    match s with
    | [] => none
    | c :: rest =>
      if c == '"' then
        match parseJString rest with
        | none => none
        | some (key, s2) =>
          match s2.dropWhile jsonIsSpace with
          | ':' :: s4 =>
            match parseValue n s4 with
            | none => none
            | some (v, s5) =>
              match s5.dropWhile jsonIsSpace with
              | c2 :: s7 =>
                if c2 == ',' then parseMembers n (acc ++ [(key, v)]) s7
                else if c2 == braceClose then some (GoVal.obj (acc ++ [(key, v)]), s7)
                else none
              | [] => none
          | _ => none
      else none

/-- Array parser, input just after the opening bracket. -/
def parseArrBody : Nat → List Char → Option (GoVal × List Char)
  | 0, _ => none
  | Nat.succ n, s0 =>
    let s := s0.dropWhile jsonIsSpace
    match s with
    | [] => none
    | c :: rest =>
      if c == ']' then some (GoVal.arr [], rest) else parseElems n [] s

def parseElems : Nat → List GoVal → List Char → Option (GoVal × List Char)
  | 0, _, _ => none
  | Nat.succ n, acc, s =>
    match parseValue n s with
    | none => none
    | some (v, s2) =>
      match s2.dropWhile jsonIsSpace with
      | ',' :: r => parseElems n (acc ++ [v]) r
      | ']' :: r => some (GoVal.arr (acc ++ [v]), r)
      | _ => none

end

/-- Model of Go `json.Unmarshal(data, &v)` for `v : any`: one JSON value,
optionally surrounded by white space, with nothing after it. The fuel
`4 * length + 4` dominates the recursion depth of any input. -/
def jsonUnmarshalAny (s : List Char) : Option GoVal :=
  match parseValue (4 * s.length + 4) s with
  | some (v, rest) => if (rest.dropWhile jsonIsSpace).isEmpty then some v else none
  | none => none

/-- Model of Go `json.Unmarshal(data, &params)` for
`params : map[string]any`: the top-level value must be an object (Go also
accepts `null`, leaving the map nil, which this model conflates with the
empty object; `parseToolCall` only ever passes brace-delimited input, so
the case never arises there). -/
def jsonUnmarshalObj (s : List Char) : Option (List (List Char × GoVal)) :=
  match jsonUnmarshalAny s with
  | some (GoVal.obj kvs) => some kvs
  | some GoVal.null => some []
  | _ => none

/-! ## Tool Gateway (`mcp-server/main.go`) -/

/-- The Jenkins access configuration (`JenkinsClient` struct). -/
structure JenkinsClient where
  Base : List Char
  User : List Char
  Token : List Char

/-- An outgoing backend HTTP request as `JenkinsClient.do` builds it. -/
structure HttpRequest where
  method : List Char
  url : List Char
  query : List (List Char × List Char)
  basicAuth : Option (List Char × List Char)

/-- A backend HTTP response: status code and body bytes. -/
structure BackendResp where
  status : Nat
  body : List Char

/-- Model of `url.Values.Set`: replace the binding for `k` if present,
append it otherwise. -/
def querySet (q : List (List Char × List Char)) (k v : List Char) : List (List Char × List Char) :=
  if q.any (fun kv => kv.1 == k) then q.map (fun kv => if kv.1 == k then (k, v) else kv)
  else q ++ [(k, v)]

/-- Request construction in `JenkinsClient.do`: URL is base plus path,
each `params` entry is `Set` into the query, and basic auth is attached
when the username OR the token is non-empty (`jc.User != "" ||
jc.Token != ""` in the source). -/
def buildRequest (jc : JenkinsClient) (method path : List Char)
    (params : List (List Char × List Char)) : HttpRequest :=
  { method := method
    url := jc.Base ++ path
    query := params.foldl (fun q kv => querySet q kv.1 kv.2) []
    basicAuth :=
      if !jc.User.isEmpty || !jc.Token.isEmpty then some (jc.User, jc.Token) else none }

/-- The error text `JenkinsClient.do` produces for a non-2xx/3xx
response: `"jenkins error: status=%d body=%s"`. -/
def jenkinsErrMsg (resp : BackendResp) : List Char :=
  ("jenkins error: status=").data ++ (Nat.repr resp.status).data ++ (" body=").data ++ resp.body

/-- Model of `JenkinsClient.do`: build the request, consult the backend
(an oracle mapping requests to responses), and fail on status >= 400 with
the formatted error, otherwise return the body. Returns the issued
request alongside the outcome so that theorems can speak about which
backend requests a handler issues. -/
def doReq (jc : JenkinsClient) (oracle : HttpRequest → BackendResp) (method path : List Char)
    (params : List (List Char × List Char)) : HttpRequest × Except (List Char) (List Char) :=
  let req := buildRequest jc method path params
  let resp := oracle req
  if 400 ≤ resp.status then (req, Except.error (jenkinsErrMsg resp)) else (req, Except.ok resp.body)

/-- Model of `JenkinsClient.TriggerJob`: the non-parameterized build path
for an empty parameter map, `buildWithParameters` otherwise; a `do`
failure is wrapped as `"failed to trigger job: %w"`. -/
def TriggerJob (jc : JenkinsClient) (oracle : HttpRequest → BackendResp) (jobName : List Char)
    (params : List (List Char × List Char)) : HttpRequest × Except (List Char) Unit :=
  let path :=
    if params.length > 0 then ("/job/").data ++ jobName ++ ("/buildWithParameters").data
    else ("/job/").data ++ jobName ++ ("/build").data
  let r := doReq jc oracle ("POST").data path params
  (r.1,
   match r.2 with
   | Except.error e => Except.error (("failed to trigger job: ").data ++ e)
   | Except.ok _ => Except.ok ())

/-- A tool invocation outcome (`mcp.NewToolResultText`,
`mcp.NewToolResultStructuredOnly`, `mcp.NewToolResultError`). -/
inductive ToolResult where
  | text (s : List Char)
  | structured (v : GoVal)
  | err (s : List Char)

def ToolResult.isText : ToolResult → Bool
  | ToolResult.text _ => true
  | _ => false

def ToolResult.isErr : ToolResult → Bool
  | ToolResult.err _ => true
  | _ => false

/-- Model of Go `strconv.Atoi`: optional sign, at least one digit, all
characters digits, value within the 64-bit int range (out-of-range input
makes `Atoi` return a non-nil error, which the handler treats the same
as a syntax error). -/
def goAtoi (s : List Char) : Option Int :=
  let core : Bool → List Char → Option Int := fun neg ds =>
    if ds.isEmpty then none
    else if ds.all Char.isDigit then
      let v : Int := if neg then -(digitsVal ds : Int) else (digitsVal ds : Int)
      if v < -(2 ^ 63) ∨ 2 ^ 63 - 1 < v then none else some v
    else none
  match s with
  | '+' :: rest => core false rest
  | '-' :: rest => core true rest
  | _ => core false s

/-- The `build_number` type switch of the `get_console_log` handler:
a Go `int` is used directly, a `float64` is truncated with `int(v)`,
a string goes through `strconv.Atoi`, anything else is rejected. -/
def consoleBuildNum : GoVal → Except (List Char) Int
  | GoVal.int n => Except.ok n
  | GoVal.num m e => Except.ok (goFloatToInt m e)
  | GoVal.str s =>
    match goAtoi s with
    | none => Except.error ("invalid build_number string").data
    | some n => Except.ok n
  | _ => Except.error ("invalid build_number type").data

/-- The console-log truncation step of the `get_console_log` handler:
text longer than 100000 is cut at 100000 and the truncation marker is
appended. -/
def truncateLog (s : List Char) : List Char :=
  if s.length > 100000 then s.take 100000 ++ ("\n...(truncated)").data else s

mutual

/-- Structural depth of a decoded value, used as rendering fuel. -/
def goValDepth : GoVal → Nat
  | GoVal.arr xs => goValListDepth xs + 1
  | GoVal.obj kvs => goValKVDepth kvs + 1
  | _ => 1

def goValListDepth : List GoVal → Nat
  | [] => 0
  | v :: vs => Nat.max (goValDepth v) (goValListDepth vs)

def goValKVDepth : List (List Char × GoVal) → Nat
  | [] => 0
  | kv :: kvs => Nat.max (goValDepth kv.2) (goValKVDepth kvs)

end

/-- Fuel-driven rendering used by `goSprint`. -/
def goSprintAux : Nat → GoVal → List Char
  | _, GoVal.str s => s
  | _, GoVal.int n => (Int.repr n).data
  | _, GoVal.bool true => ("true").data
  | _, GoVal.bool false => ("false").data
  | _, GoVal.null => ("<nil>").data
  | _, GoVal.num m e =>
    if 0 ≤ e then (Int.repr (m * 10 ^ e.toNat)).data else []
  | 0, _ => []
  | Nat.succ n, GoVal.arr xs =>
    ['['] ++ List.intercalate [' '] (xs.map (goSprintAux n)) ++ [']']
  | Nat.succ n, GoVal.obj kvs =>
    ("map[").data ++
      List.intercalate [' '] (kvs.map (fun kv => kv.1 ++ [':'] ++ goSprintAux n kv.2)) ++ [']']

/-- Model of Go `fmt.Sprint` on a decoded JSON value, as used to coerce
the `parameters` object of `trigger_job` to `map[string]string`. Exact
for strings, booleans, nil and integral numbers (the only shapes the
repository exercises); the `%v` float formatting of non-integral numbers
and the sorted-key map rendering are approximated (a non-integral `num`
renders as empty and maps render in insertion order), and no theorem
depends on those cases. -/
def goSprint (v : GoVal) : List Char :=
  goSprintAux (goValDepth v) v

/-- The `trigger_job` handler: requires a non-empty string `job_name`,
coerces an optional `parameters` object to a string map with
`fmt.Sprint`, and calls `TriggerJob`. Returns the list of backend
requests issued alongside the tool result. -/
def triggerHandler (jc : JenkinsClient) (oracle : HttpRequest → BackendResp)
    (args : List (List Char × GoVal)) : List HttpRequest × ToolResult :=
  match goMapGet args ("job_name").data with
  | some (GoVal.str jobName) =>
    if jobName.isEmpty then ([], ToolResult.err ("job_name is required").data)
    else
      let params : List (List Char × List Char) :=
        match goMapGet args ("parameters").data with
        | some (GoVal.obj p) => p.map (fun kv => (kv.1, goSprint kv.2))
        | _ => []
      let r := TriggerJob jc oracle jobName params
      ([r.1],
       match r.2 with
       | Except.error e => ToolResult.err e
       | Except.ok _ => ToolResult.text ("job triggered successfully!").data)
  | _ => ([], ToolResult.err ("job_name is required").data)

/-- The `get_build_status` handler: reads `job_name` with a blank type
assertion (missing or non-string becomes the empty string, with no
validation), always issues the `lastBuild/api/json` request, returns an
error result on backend failure, the structured parse on JSON success,
and the raw text when the body does not parse. -/
def statusHandler (jc : JenkinsClient) (oracle : HttpRequest → BackendResp)
    (args : List (List Char × GoVal)) : List HttpRequest × ToolResult :=
  let jobName :=
    match goMapGet args ("job_name").data with
    | some (GoVal.str s) => s
    | _ => []
  let r := doReq jc oracle ("GET").data (("/job/").data ++ jobName ++ ("/lastBuild/api/json").data) []
  ([r.1],
   match r.2 with
   | Except.error e => ToolResult.err e
   | Except.ok data =>
     match jsonUnmarshalAny data with
     | none => ToolResult.text data
     | some parsed => ToolResult.structured parsed)

/-- The `get_console_log` handler: reads `job_name` with a blank type
assertion (no validation), requires a `build_number` convertible by
`consoleBuildNum`, issues the `consoleText` request, and truncates the
returned log. -/
def consoleHandler (jc : JenkinsClient) (oracle : HttpRequest → BackendResp)
    (args : List (List Char × GoVal)) : List HttpRequest × ToolResult :=
  let jobName :=
    match goMapGet args ("job_name").data with
    | some (GoVal.str s) => s
    | _ => []
  match goMapGet args ("build_number").data with
  | none => ([], ToolResult.err ("missing build_number").data)
  | some v =>
    match consoleBuildNum v with
    | Except.error e => ([], ToolResult.err e)
    | Except.ok buildNumber =>
      let r := doReq jc oracle ("GET").data
          (("/job/").data ++ jobName ++ ['/'] ++ (Int.repr buildNumber).data ++ ("/consoleText").data) []
      ([r.1],
       match r.2 with
       | Except.error e => ToolResult.err e
       | Except.ok data => ToolResult.text (truncateLog data))

/-! ## Prompt Bridge (`mcp-client/main.go`) -/

/-- A parsed tool directive (`ToolCall` struct). -/
structure ToolCall where
  name : List Char
  params : List (List Char × GoVal)

/-- The literal fixups of `parseToolCall`, in source order: `True` to
`true`, then `False` to `false`, then `None` to `null`, each applied to
every occurrence of the exact spelling anywhere in the extracted text. -/
def normalizeLiterals (s : List Char) : List Char :=
  replaceAll ("None").data ("null").data
    (replaceAll ("False").data ("false").data
      (replaceAll ("True").data ("true").data s))

/-- The part of `parseToolCall` that runs after the reply is split into a
tool-name part and a parameter part: trim both, extract the first-brace
to last-brace slice, normalize literal spellings, and unmarshal into an
argument map. -/
def parseToolCallFromParts (p1 p2 : List Char) : Option ToolCall :=
  let name := trimSpace p1
  let rawParams := trimSpace p2
  match extractBraces rawParams with
  | none => none
  | some jsonStr =>
    match jsonUnmarshalObj (normalizeLiterals jsonStr) with
    | none => none
    | some params => some { name := name, params := params }

/-- Model of `parseToolCall`: trim the reply, require the `TOOL:` prefix,
split the remainder at the first space into tool name and parameter
text (failing when there is no space), and hand over to
`parseToolCallFromParts`. -/
def parseToolCall (reply : List Char) : Option ToolCall :=
  let r := trimSpace reply
  if ("TOOL:").data.isPrefixOf r then
    let raw := trimSpace (r.drop 5)
    match splitOnceSpace raw with
    | none => none
    | some (p1, p2) => parseToolCallFromParts p1 p2
  else none

/-- A conversation entry (`Message` struct). -/
structure Message where
  role : List Char
  content : List Char

/-- One item of an MCP tool result's `Content` array: either text
content or some other content kind, carried here already in the JSON
form `extractTextFromContent` would marshal it to. -/
inductive MCPContent where
  | text (t : List Char)
  | other (marshalled : List Char)

/-- The observable pieces of a successful `CallTool` response the bridge
uses: the content items, and the `%v` rendering of its `Result` field
that `"[Tool output]: %v"` interpolates (the rendering of that library
struct is kept abstract as a field). -/
structure CallResult where
  content : List MCPContent
  printed : List Char

/-- Model of `extractTextFromContent`: concatenate each item (text, or
its JSON marshalling) followed by a newline, then trim. -/
def extractTextFromContent (cs : List MCPContent) : List Char :=
  trimSpace (cs.foldl (fun acc c =>
    acc ++ (match c with
            | MCPContent.text t => t
            | MCPContent.other m => m) ++ ['\n']) [])

/-- The `build_number` read in the bridge's `analyze_logs` branch:
`int(toolCall.Params["build_number"].(float64))`, an unconditional
`float64` type assertion. `none` models the run-time panic the failed
assertion raises for a missing value or any non-`float64` value. -/
def analyzeBuildNum (params : List (List Char × GoVal)) : Option Int :=
  match goMapGet params ("build_number").data with
  | some (GoVal.num m e) => some (goFloatToInt m e)
  | _ => none

/-- One REPL turn of the bridge after the completion reply is in hand
(the loop body of `main` from `history = append(history, user)` on).
`callTool` stands for `mcpClient.CallTool` and `analyzeLLM` for the
second completion request of the analyze branch; `none` models a panic.
On a dispatch or analysis error the loop `continue`s, leaving the user
message as the only entry appended this turn. -/
def bridgeTurn (history : List Message) (input llmReply : List Char)
    (callTool : ToolCall → Except (List Char) CallResult)
    (analyzeLLM : List Char → Except (List Char) (List Char)) : Option (List Message) :=
  let hist1 := history ++ [{ role := ("user").data, content := input }]
  match parseToolCall llmReply with
  | none => some (hist1 ++ [{ role := ("assistant").data, content := llmReply }])
  | some tc =>
    if tc.name = ("analyze_logs").data then
      let jobName :=
        match goMapGet tc.params ("job_name").data with
        | some (GoVal.str s) => s
        | _ => []
      match analyzeBuildNum tc.params with
      | none => none
      | some bn =>
        match callTool { name := ("get_console_log").data,
                         params := [(("job_name").data, GoVal.str jobName),
                                    (("build_number").data, GoVal.int bn)] } with
        | Except.error _ => some hist1
        | Except.ok logResp =>
          match analyzeLLM (extractTextFromContent logResp.content) with
          | Except.error _ => some hist1
          | Except.ok result =>
            some (hist1 ++ [{ role := ("assistant").data,
                              content := ("[Log analysis]: ").data ++ result }])
    else
      match callTool tc with
      | Except.error _ => some hist1
      | Except.ok resp =>
        some (hist1 ++ [{ role := ("assistant").data,
                          content := ("[Tool output]: ").data ++ resp.printed }])

/-- Modelled from the spec: the SSE transport and MCP client library are
not part of this repository, and the spec's error scenario states that a
Gateway error result for the failed dispatch surfaces on the bridge side
as a failed `CallTool` call. This dispatch function embodies that
delivery for a given error text. -/
def specFailingDispatch (e : List Char) : ToolCall → Except (List Char) CallResult :=
  fun _ => Except.error e

/-- Missing-or-invalid test for the `job_name` argument, matching the
`jobNameVal, ok := ...(string); if !ok || jobNameVal == ""` check of the
`trigger_job` handler: `false` unless the value is a non-empty string. -/
def jobNameOk (o : Option GoVal) : Bool :=
  match o with
  | some (GoVal.str s) => !s.isEmpty
  | _ => false

/-- Test whether a decoded argument value is a Go `float64`, the only
dynamic type the bridge's `build_number` assertion accepts. -/
def isFloat64Val (o : Option GoVal) : Bool :=
  match o with
  | some (GoVal.num _ _) => true
  | _ => false

/-! ## Supporting lemmas -/

theorem doReq_fst (jc : JenkinsClient) (oracle : HttpRequest → BackendResp)
    (method path : List Char) (params : List (List Char × List Char)) :
    (doReq jc oracle method path params).1 = buildRequest jc method path params := by
  simp only [doReq]
  split <;> rfl

theorem TriggerJob_fst (jc : JenkinsClient) (oracle : HttpRequest → BackendResp)
    (jobName : List Char) (params : List (List Char × List Char)) :
    (TriggerJob jc oracle jobName params).1 =
      buildRequest jc ("POST").data
        (if params.length > 0 then ("/job/").data ++ jobName ++ ("/buildWithParameters").data
         else ("/job/").data ++ jobName ++ ("/build").data) params := by
  simp only [TriggerJob]
  exact doReq_fst jc oracle _ _ params

/-- Folding `url.Values.Set` over a parameter list with pairwise distinct
keys, starting from an accumulator whose keys are disjoint from them,
appends the parameters in order. -/
theorem foldl_querySet_eq_append (params : List (List Char × List Char)) :
    ∀ acc : List (List Char × List Char), (params.map Prod.fst).Nodup →
      (∀ kv ∈ params, ∀ kv' ∈ acc, kv.1 ≠ kv'.1) →
      params.foldl (fun q kv => querySet q kv.1 kv.2) acc = acc ++ params := by
  induction params with
  | nil => intro acc _ _; simp
  | cons hd tl ih =>
    intro acc hnd hdisj
    rw [List.map_cons] at hnd
    have hnotin : hd.1 ∉ tl.map Prod.fst := (List.nodup_cons.mp hnd).1
    have hndtl : (tl.map Prod.fst).Nodup := (List.nodup_cons.mp hnd).2
    have hany : (acc.any fun kv => kv.1 == hd.1) = false := by
      rw [Bool.eq_false_iff]
      intro hx
      rw [List.any_eq_true] at hx
      obtain ⟨kv', hkv', hbeq⟩ := hx
      exact hdisj hd (List.mem_cons_self hd tl) kv' hkv' (eq_of_beq hbeq).symm
    have hset : querySet acc hd.1 hd.2 = acc ++ [hd] := by
      unfold querySet
      rw [hany]
      simp
    have hdisj' : ∀ kv ∈ tl, ∀ kv' ∈ acc ++ [hd], kv.1 ≠ kv'.1 := by
      intro kv hkv kv' hkv'
      rcases List.mem_append.mp hkv' with h | h
      · exact hdisj kv (List.mem_cons_of_mem hd hkv) kv' h
      · have hk : kv' = hd := by simpa using h
        subst hk
        intro hcontra
        exact hnotin (hcontra ▸ List.mem_map_of_mem Prod.fst hkv)
    calc List.foldl (fun q kv => querySet q kv.1 kv.2) acc (hd :: tl)
        = List.foldl (fun q kv => querySet q kv.1 kv.2) (querySet acc hd.1 hd.2) tl := rfl
      _ = (acc ++ [hd]) ++ tl := by rw [hset]; exact ih (acc ++ [hd]) hndtl hdisj'
      _ = acc ++ hd :: tl := by simp

theorem TriggerJob_query (jc : JenkinsClient) (oracle : HttpRequest → BackendResp)
    (jobName : List Char) (params : List (List Char × List Char))
    (hnd : (params.map Prod.fst).Nodup) :
    (TriggerJob jc oracle jobName params).1.query = params := by
  rw [TriggerJob_fst]
  unfold buildRequest
  simpa using foldl_querySet_eq_append params [] hnd (by simp)

/-! ## C1 -/

/-- C1: `trigger_job` with an empty parameter mapping issues the CI build
request on `/job/{name}/build` with no query parameters, and with a
non-empty mapping issues it on `/job/{name}/buildWithParameters` with
every mapping entry present in the request's query. -/
theorem C1_trigger_job_paths (jc : JenkinsClient) (oracle : HttpRequest → BackendResp)
    (jobName : List Char) (params : List (List Char × List Char))
    (hnd : (params.map Prod.fst).Nodup) :
    (params = [] →
      (TriggerJob jc oracle jobName params).1.url =
        jc.Base ++ ("/job/").data ++ jobName ++ ("/build").data ∧
      (TriggerJob jc oracle jobName params).1.query = []) ∧
    (params ≠ [] →
      (TriggerJob jc oracle jobName params).1.url =
        jc.Base ++ ("/job/").data ++ jobName ++ ("/buildWithParameters").data ∧
      ∀ kv ∈ params, kv ∈ (TriggerJob jc oracle jobName params).1.query) := by
  constructor
  · intro hempty
    subst hempty
    refine ⟨?_, TriggerJob_query jc oracle jobName [] hnd⟩
    rw [TriggerJob_fst]
    simp [buildRequest, List.append_assoc]
  · intro hne
    have hlen : params.length > 0 := List.length_pos.mpr hne
    constructor
    · rw [TriggerJob_fst]
      simp [buildRequest, hlen, List.append_assoc]
    · intro kv hkv
      rw [TriggerJob_query jc oracle jobName params hnd]
      exact hkv

/-- C1 witness: both branches at concrete inputs. -/
theorem C1_trigger_job_paths_witness :
    ((TriggerJob { Base := ("http://jenkins:8080/jenkins").data, User := [], Token := [] }
        (fun _ => { status := 200, body := [] }) ("demo-job").data []).1.url =
      ("http://jenkins:8080/jenkins").data ++ ("/job/").data ++ ("demo-job").data ++ ("/build").data ∧
     (TriggerJob { Base := ("http://jenkins:8080/jenkins").data, User := [], Token := [] }
        (fun _ => { status := 200, body := [] }) ("demo-job").data []).1.query = []) ∧
    ((TriggerJob { Base := ("http://jenkins:8080/jenkins").data, User := [], Token := [] }
        (fun _ => { status := 200, body := [] }) ("demo-job").data
        [(("P").data, ("1").data)]).1.url =
      ("http://jenkins:8080/jenkins").data ++ ("/job/").data ++ ("demo-job").data ++
        ("/buildWithParameters").data ∧
     ∀ kv ∈ [(("P").data, ("1").data)],
       kv ∈ (TriggerJob { Base := ("http://jenkins:8080/jenkins").data, User := [], Token := [] }
          (fun _ => { status := 200, body := [] }) ("demo-job").data
          [(("P").data, ("1").data)]).1.query) :=
  ⟨(C1_trigger_job_paths _ _ _ [] (by simp)).1 rfl,
   (C1_trigger_job_paths _ _ _ [(("P").data, ("1").data)] (by simp)).2 (by simp)⟩

/-! ## C3 -/

/-- C3: the `get_console_log` result text never exceeds 100000 characters
plus the truncation marker, and input at or below the bound is returned
verbatim; the handler returns exactly the truncation of the backend body
on a successful fetch. -/
theorem C3_console_truncation (s : List Char) :
    (truncateLog s).length ≤ 100000 + (("\n...(truncated)").data).length ∧
    (s.length ≤ 100000 → truncateLog s = s) ∧
    (∀ jc jobName bn,
      (consoleHandler jc (fun _ => { status := 200, body := s })
        [(("job_name").data, GoVal.str jobName), (("build_number").data, GoVal.int bn)]).2 =
      ToolResult.text (truncateLog s)) := by
  refine ⟨?_, ?_, ?_⟩
  · unfold truncateLog
    split
    · rename_i h
      have hm : (("\n...(truncated)").data).length = 15 := rfl
      simp only [List.length_append, List.length_take, hm]
      omega
    · rename_i h
      have hm : (("\n...(truncated)").data).length = 15 := rfl
      omega
  · intro h
    unfold truncateLog
    rw [if_neg (by omega)]
  · intro jc jobName bn
    rfl

/-- C3 witness: a short log comes back verbatim. -/
theorem C3_console_truncation_witness :
    truncateLog ("BUILD SUCCESS").data = ("BUILD SUCCESS").data :=
  (C3_console_truncation (("BUILD SUCCESS").data)).2.1 (by decide)

/-! ## C4 -/

/-- C4: the `build_number` switch maps the Go integer `42`, the JSON
float `42.0` (decoded as `420 * 10^-1`, also `42 * 10^0`), and the
string `"42"` to the integer `42`, and every string `strconv.Atoi`
rejects produces the `InvalidArgument` error result with no backend
request issued. -/
theorem C4_build_number_parsing :
    consoleBuildNum (GoVal.int 42) = Except.ok 42 ∧
    consoleBuildNum (GoVal.num 420 (-1)) = Except.ok 42 ∧
    consoleBuildNum (GoVal.num 42 0) = Except.ok 42 ∧
    consoleBuildNum (GoVal.str ("42").data) = Except.ok 42 ∧
    (∀ jc oracle args s,
      goMapGet args ("build_number").data = some (GoVal.str s) →
      goAtoi s = none →
      consoleHandler jc oracle args = ([], ToolResult.err ("invalid build_number string").data)) := by
  refine ⟨rfl, rfl, rfl, rfl, ?_⟩
  intro jc oracle args s h1 h2
  simp only [consoleHandler, h1, consoleBuildNum, h2]

/-- C4 witness: the non-numeric string branch at a concrete argument
map. -/
theorem C4_build_number_parsing_witness :
    consoleHandler { Base := [], User := [], Token := [] } (fun _ => { status := 200, body := [] })
      [(("job_name").data, GoVal.str ("demo-job").data),
       (("build_number").data, GoVal.str ("latest").data)] =
      ([], ToolResult.err ("invalid build_number string").data) :=
  C4_build_number_parsing.2.2.2.2 _ _ _ (("latest").data) rfl rfl

/-! ## C5 -/

/-- C5 counterexample: with the backend answering 500, the
`get_build_status` handler returns an error result, not the raw response
text the claim promises for backend failures. -/
theorem C5_counterexample :
    (statusHandler { Base := [], User := [], Token := [] }
      (fun _ => { status := 500, body := ("boom").data })
      [(("job_name").data, GoVal.str ("demo-job").data)]).2 =
      ToolResult.err ("jenkins error: status=500 body=boom").data ∧
    ToolResult.isText (statusHandler { Base := [], User := [], Token := [] }
      (fun _ => { status := 500, body := ("boom").data })
      [(("job_name").data, GoVal.str ("demo-job").data)]).2 = false :=
  ⟨rfl, rfl⟩

/-- C5 amended: `get_build_status` returns the structured payload when
the fetch succeeds and the body parses as JSON, falls back to the raw
text only on JSON parse failure, and returns an error result embedding
the formatted backend failure on a non-2xx response. -/
theorem C5_status_fallback_amended (jc : JenkinsClient) (resp : BackendResp)
    (args : List (List Char × GoVal)) :
    (400 ≤ resp.status →
      (statusHandler jc (fun _ => resp) args).2 = ToolResult.err (jenkinsErrMsg resp)) ∧
    (resp.status < 400 → ∀ v, jsonUnmarshalAny resp.body = some v →
      (statusHandler jc (fun _ => resp) args).2 = ToolResult.structured v) ∧
    (resp.status < 400 → jsonUnmarshalAny resp.body = none →
      (statusHandler jc (fun _ => resp) args).2 = ToolResult.text resp.body) := by
  refine ⟨?_, ?_, ?_⟩
  · intro h
    simp [statusHandler, doReq, h]
  · intro h v hv
    have hn : ¬ 400 ≤ resp.status := by omega
    simp [statusHandler, doReq, hn, hv]
  · intro h hv
    have hn : ¬ 400 ≤ resp.status := by omega
    simp [statusHandler, doReq, hn, hv]

/-- C5 witness: the three branches at concrete responses. -/
theorem C5_status_fallback_witness :
    ((statusHandler { Base := [], User := [], Token := [] }
        (fun _ => { status := 404, body := ("missing").data }) []).2 =
      ToolResult.err (jenkinsErrMsg { status := 404, body := ("missing").data })) ∧
    ((statusHandler { Base := [], User := [], Token := [] }
        (fun _ => { status := 200, body := ("\x7b\x7d").data }) []).2 =
      ToolResult.structured (GoVal.obj [])) ∧
    ((statusHandler { Base := [], User := [], Token := [] }
        (fun _ => { status := 200, body := ("<html>").data }) []).2 =
      ToolResult.text ("<html>").data) :=
  ⟨(C5_status_fallback_amended _ { status := 404, body := ("missing").data } []).1 (by decide),
   (C5_status_fallback_amended _ { status := 200, body := ("\x7b\x7d").data } []).2.1 (by decide)
     (GoVal.obj []) rfl,
   (C5_status_fallback_amended _ { status := 200, body := ("<html>").data } []).2.2 (by decide) rfl⟩

/-! ## C8 -/

/-- C8 counterexample: with the username configured and the token empty
(so not both configured), the request nonetheless carries basic auth,
because the source tests `jc.User != "" || jc.Token != ""`. -/
theorem C8_counterexample :
    (buildRequest { Base := ("b").data, User := ("alice").data, Token := [] }
      (("POST").data) (("/job/x/build").data) []).basicAuth = some (("alice").data, []) ∧
    ¬(("alice").data ≠ ([] : List Char) ∧ ([] : List Char) ≠ ([] : List Char)) :=
  ⟨rfl, fun h => h.2 rfl⟩

/-- C8 amended: the Gateway attaches basic auth to a backend request
exactly when at least one of the username and the token is non-empty,
and whenever auth is attached it carries exactly the configured
username and token. -/
theorem C8_basic_auth_amended (jc : JenkinsClient) (m p : List Char)
    (ps : List (List Char × List Char)) :
    ((buildRequest jc m p ps).basicAuth = none ↔ (jc.User = [] ∧ jc.Token = [])) ∧
    (∀ u t, (buildRequest jc m p ps).basicAuth = some (u, t) → u = jc.User ∧ t = jc.Token) := by
  obtain ⟨B, U, T⟩ := jc
  cases U <;> cases T <;> simp [buildRequest]

/-- C8 witness: attached auth carries the configured pair, and the
no-auth condition evaluates at a configured client. -/
theorem C8_basic_auth_witness :
    ((buildRequest { Base := [], User := ("mcp").data, Token := ("tok").data }
        [] [] []).basicAuth = none ↔ (("mcp").data = [] ∧ ("tok").data = [])) ∧
    (("mcp").data = ("mcp").data ∧ ("tok").data = ("tok").data) :=
  ⟨(C8_basic_auth_amended { Base := [], User := ("mcp").data, Token := ("tok").data } [] [] []).1,
   (C8_basic_auth_amended { Base := [], User := ("mcp").data, Token := ("tok").data }
     [] [] []).2 (("mcp").data) (("tok").data) rfl⟩

/-! ## C9 -/

/-- C9 counterexample: `get_build_status` invoked with no arguments at
all (so `job_name` is missing) still issues one backend request, for the
path with an empty job name, and does not produce an error result. -/
theorem C9_counterexample :
    (statusHandler { Base := [], User := [], Token := [] }
      (fun _ => { status := 200, body := ("ok").data }) []).1 =
      [{ method := ("GET").data, url := ("/job//lastBuild/api/json").data,
         query := [], basicAuth := none }] ∧
    ToolResult.isErr (statusHandler { Base := [], User := [], Token := [] }
      (fun _ => { status := 200, body := ("ok").data }) []).2 = false :=
  ⟨rfl, rfl⟩

/-- C9 amended: only `trigger_job` validates `job_name` (a missing or
empty value is rejected with the `InvalidArgument` text and no backend
request); `get_build_status` issues its backend request unconditionally,
and `get_console_log` validates only `build_number`, issuing the request
even when `job_name` is absent. -/
theorem C9_required_fields_amended :
    (∀ jc oracle args, jobNameOk (goMapGet args ("job_name").data) = false →
      triggerHandler jc oracle args = ([], ToolResult.err ("job_name is required").data)) ∧
    (∀ jc oracle args, (statusHandler jc oracle args).1 ≠ []) ∧
    (∀ jc oracle args bn,
      goMapGet args ("build_number").data = some (GoVal.int bn) →
      (consoleHandler jc oracle args).1 ≠ []) := by
  refine ⟨?_, ?_, ?_⟩
  · intro jc oracle args h
    cases hm : goMapGet args (("job_name").data) with
    | none => simp [triggerHandler, hm]
    | some v =>
      cases v with
      | str s =>
        have hs : s.isEmpty = true := by
          rw [hm] at h
          simpa [jobNameOk] using h
        simp [triggerHandler, hm, hs]
      | num m e => simp [triggerHandler, hm]
      | int n => simp [triggerHandler, hm]
      | bool b => simp [triggerHandler, hm]
      | null => simp [triggerHandler, hm]
      | arr xs => simp [triggerHandler, hm]
      | obj kvs => simp [triggerHandler, hm]
  · intro jc oracle args
    simp [statusHandler]
  · intro jc oracle args bn h
    simp [consoleHandler, h, consoleBuildNum]

/-- C9 witness: the validated and unvalidated paths at concrete
arguments. -/
theorem C9_required_fields_witness :
    triggerHandler { Base := [], User := [], Token := [] }
      (fun _ => { status := 200, body := [] }) [] =
      ([], ToolResult.err ("job_name is required").data) ∧
    (consoleHandler { Base := [], User := [], Token := [] }
      (fun _ => { status := 200, body := [] })
      [(("build_number").data, GoVal.int 7)]).1 ≠ [] :=
  ⟨C9_required_fields_amended.1 _ _ [] rfl,
   C9_required_fields_amended.2.2 _ _ [(("build_number").data, GoVal.int 7)] 7 rfl⟩

/-! ## C2 -/

/-- C2 counterexample: a directive with trailing garbage after the JSON
object (garbage containing no closing brace) still yields a ToolRequest,
because the parser slices from the first opening brace to the last
closing brace and so strips the garbage. -/
theorem C2_counterexample :
    parseToolCall ("TOOL: trigger_job \x7b\"job_name\":\"demo-job\"\x7d trailing").data =
      some { name := ("trigger_job").data,
             params := [(("job_name").data, GoVal.str ("demo-job").data)] } ∧
    parseToolCall ("TOOL: trigger_job \x7b\"job_name\":\"demo-job\"\x7d trailing").data ≠ none := by
  have h : parseToolCall ("TOOL: trigger_job \x7b\"job_name\":\"demo-job\"\x7d trailing").data =
      some { name := ("trigger_job").data,
             params := [(("job_name").data, GoVal.str ("demo-job").data)] } := rfl
  exact ⟨h, by rw [h]; exact fun hc => Option.noConfusion hc⟩

/-- C2 amended: the well-formed example yields the expected ToolRequest;
a directive whose parameter text has unbalanced braces (no opening
brace, no closing brace, or the last closing brace not after the first
opening brace) yields no ToolRequest, as does one whose extracted and
normalized brace slice fails JSON parsing (for example trailing garbage
that itself contains a closing brace); trailing garbage without a
closing brace is stripped. Whenever no ToolRequest is produced the
bridge appends the original reply text verbatim as the assistant turn.
The two universal parts are stated end-to-end about `parseToolCall`,
with the directive's stages (prefix test, split at the first space,
brace extraction on the trimmed parameter part) as hypotheses. -/
theorem C2_directive_parsing_amended :
    (parseToolCall ("TOOL: trigger_job \x7b\"job_name\":\"demo-job\"\x7d").data =
      some { name := ("trigger_job").data,
             params := [(("job_name").data, GoVal.str ("demo-job").data)] }) ∧
    (∀ reply p1 p2,
      ("TOOL:").data.isPrefixOf (trimSpace reply) = true →
      splitOnceSpace (trimSpace ((trimSpace reply).drop 5)) = some (p1, p2) →
      extractBraces (trimSpace p2) = none →
      parseToolCall reply = none) ∧
    (∀ reply p1 p2 js,
      ("TOOL:").data.isPrefixOf (trimSpace reply) = true →
      splitOnceSpace (trimSpace ((trimSpace reply).drop 5)) = some (p1, p2) →
      extractBraces (trimSpace p2) = some js →
      jsonUnmarshalObj (normalizeLiterals js) = none →
      parseToolCall reply = none) ∧
    (parseToolCall ("TOOL: trigger_job \x7b\"job_name\":\"demo-job\"").data = none) ∧
    (parseToolCall ("TOOL: trigger_job \x7b\"job_name\":\"demo-job\"\x7d \x7d").data = none) ∧
    (∀ history input llmReply callTool analyzeLLM, parseToolCall llmReply = none →
      bridgeTurn history input llmReply callTool analyzeLLM =
        some (history ++ [{ role := ("user").data, content := input },
                          { role := ("assistant").data, content := llmReply }])) := by
  refine ⟨rfl, ?_, ?_, rfl, rfl, ?_⟩
  · intro reply p1 p2 h1 h2 h3
    simp [parseToolCall, h1, h2, parseToolCallFromParts, h3]
  · intro reply p1 p2 js h1 h2 h3 h4
    simp [parseToolCall, h1, h2, parseToolCallFromParts, h3, h4]
  · intro history input llmReply callTool analyzeLLM h
    simp [bridgeTurn, h]

/-- C2 witness: the failure branches and the verbatim append at concrete
inputs. -/
theorem C2_directive_parsing_witness :
    parseToolCall ("TOOL: trigger_job no braces here").data = none ∧
    parseToolCall ("TOOL: trigger_job \x7bnot json\x7d").data = none ∧
    bridgeTurn [] ("hello").data ("just a plain reply").data
        (specFailingDispatch []) (fun _ => Except.error []) =
      some [{ role := ("user").data, content := ("hello").data },
            { role := ("assistant").data, content := ("just a plain reply").data }] :=
  ⟨C2_directive_parsing_amended.2.1 (("TOOL: trigger_job no braces here").data)
     (("trigger_job").data) (("no braces here").data) rfl rfl rfl,
   C2_directive_parsing_amended.2.2.1 (("TOOL: trigger_job \x7bnot json\x7d").data)
     (("trigger_job").data) (("\x7bnot json\x7d").data) (("\x7bnot json\x7d").data)
     rfl rfl rfl rfl,
   C2_directive_parsing_amended.2.2.2.2.2 [] (("hello").data) (("just a plain reply").data)
     (specFailingDispatch []) (fun _ => Except.error []) rfl⟩

/-! ## C6 -/

/-- C6 counterexample: replacing `true` by the alternate capitalization
`TRUE` (one of the claim's examples) does not parse identically: the
lowercase directive yields a ToolRequest, the `TRUE` directive yields
none, because only the exact spellings `True`/`False`/`None` are
replaced. -/
theorem C6_counterexample :
    parseToolCall ("TOOL: trigger_job \x7b\"flag\": true\x7d").data =
      some { name := ("trigger_job").data, params := [(("flag").data, GoVal.bool true)] } ∧
    parseToolCall ("TOOL: trigger_job \x7b\"flag\": TRUE\x7d").data = none ∧
    parseToolCall ("TOOL: trigger_job \x7b\"flag\": TRUE\x7d").data ≠
      parseToolCall ("TOOL: trigger_job \x7b\"flag\": true\x7d").data := by
  have h1 : parseToolCall ("TOOL: trigger_job \x7b\"flag\": true\x7d").data =
      some { name := ("trigger_job").data, params := [(("flag").data, GoVal.bool true)] } := rfl
  have h2 : parseToolCall ("TOOL: trigger_job \x7b\"flag\": TRUE\x7d").data = none := rfl
  exact ⟨h1, h2, by rw [h1, h2]; exact fun hc => Option.noConfusion hc⟩

/-- C6 amended: literal normalization replaces exactly the spellings
`True`, `False` and `None` (anywhere in the extracted text), so a
directive using those parses identically to the `true`/`false`/`null`
one; other capitalizations such as `TRUE` or `FALSE` are not normalized
and, used as bare literals, make the directive yield no ToolRequest. -/
theorem C6_literal_normalization_amended :
    parseToolCall ("TOOL: t \x7b\"a\": True, \"b\": False, \"c\": None\x7d").data =
      parseToolCall ("TOOL: t \x7b\"a\": true, \"b\": false, \"c\": null\x7d").data ∧
    parseToolCall ("TOOL: t \x7b\"a\": true, \"b\": false, \"c\": null\x7d").data =
      some { name := ("t").data,
             params := [(("a").data, GoVal.bool true), (("b").data, GoVal.bool false),
                        (("c").data, GoVal.null)] } ∧
    parseToolCall ("TOOL: t \x7b\"a\": TRUE\x7d").data = none ∧
    parseToolCall ("TOOL: t \x7b\"a\": FALSE\x7d").data = none :=
  ⟨rfl, rfl, rfl, rfl⟩

/-! ## C7 -/

/-- C7: when the backend answers HTTP 500 with body `no such job`, the
Gateway's `trigger_job` handler returns an error result whose text
contains `500` and the body text; and whenever a dispatched tool call
fails on the bridge side (per the spec, the transport surfaces the
Gateway error result as a failed call), the REPL turn leaves only the
pre-dispatch user message in the conversation history. -/
theorem C7_upstream_error_scenario :
    ((triggerHandler { Base := ("http://jenkins:8080/jenkins").data, User := [], Token := [] }
        (fun _ => { status := 500, body := ("no such job").data })
        [(("job_name").data, GoVal.str ("missing-job").data)]).2 =
      ToolResult.err ("failed to trigger job: jenkins error: status=500 body=no such job").data) ∧
    containsSub ("failed to trigger job: jenkins error: status=500 body=no such job").data
      (("500").data) = true ∧
    containsSub ("failed to trigger job: jenkins error: status=500 body=no such job").data
      (("no such job").data) = true ∧
    (∀ history input llmReply tc e analyzeLLM,
      parseToolCall llmReply = some tc →
      tc.name ≠ ("analyze_logs").data →
      bridgeTurn history input llmReply (specFailingDispatch e) analyzeLLM =
        some (history ++ [{ role := ("user").data, content := input }])) := by
  refine ⟨rfl, rfl, rfl, ?_⟩
  intro history input llmReply tc e analyzeLLM h1 h2
  simp [bridgeTurn, h1, h2, specFailingDispatch]

/-- C7 witness: the failed dispatch of the scenario's directive at a
concrete history. -/
theorem C7_upstream_error_witness :
    bridgeTurn [] ("run missing-job").data
        ("TOOL: trigger_job \x7b\"job_name\":\"missing-job\"\x7d").data
        (specFailingDispatch
          ("failed to trigger job: jenkins error: status=500 body=no such job").data)
        (fun _ => Except.error []) =
      some [{ role := ("user").data, content := ("run missing-job").data }] :=
  C7_upstream_error_scenario.2.2.2 [] (("run missing-job").data)
    (("TOOL: trigger_job \x7b\"job_name\":\"missing-job\"\x7d").data)
    { name := ("trigger_job").data,
      params := [(("job_name").data, GoVal.str ("missing-job").data)] }
    (("failed to trigger job: jenkins error: status=500 body=no such job").data)
    (fun _ => Except.error []) rfl (by decide)

/-! ## C10 -/

/-- C10: the bridge's `analyze_logs` branch reads `build_number` with an
unconditional `float64` type assertion, so every parsed directive whose
`build_number` is not a JSON number (a numeric string, or absent) makes
the turn panic instead of producing an error result, while the Gateway's
own `get_console_log` accepts the numeric string `"42"`. -/
theorem C10_analyze_logs_assertion :
    (∀ params, isFloat64Val (goMapGet params ("build_number").data) = false →
      analyzeBuildNum params = none) ∧
    (∀ history input callTool analyzeLLM,
      bridgeTurn history input
        ("TOOL: analyze_logs \x7b\"job_name\":\"j\",\"build_number\":\"42\"\x7d").data
        callTool analyzeLLM = none) ∧
    (∀ history input callTool analyzeLLM,
      bridgeTurn history input
        ("TOOL: analyze_logs \x7b\"job_name\":\"j\"\x7d").data
        callTool analyzeLLM = none) ∧
    consoleBuildNum (GoVal.str ("42").data) = Except.ok 42 := by
  refine ⟨?_, fun _ _ _ _ => rfl, fun _ _ _ _ => rfl, rfl⟩
  intro params h
  cases hm : goMapGet params (("build_number").data) with
  | none => simp [analyzeBuildNum, hm]
  | some v =>
    cases v with
    | str s => simp [analyzeBuildNum, hm]
    | num m e =>
      rw [hm] at h
      exact absurd h (by simp [isFloat64Val])
    | int n => simp [analyzeBuildNum, hm]
    | bool b => simp [analyzeBuildNum, hm]
    | null => simp [analyzeBuildNum, hm]
    | arr xs => simp [analyzeBuildNum, hm]
    | obj kvs => simp [analyzeBuildNum, hm]

/-- C10 witness: the assertion panics on a numeric-string argument map. -/
theorem C10_analyze_logs_assertion_witness :
    analyzeBuildNum [(("build_number").data, GoVal.str ("42").data)] = none :=
  C10_analyze_logs_assertion.1 [(("build_number").data, GoVal.str ("42").data)] rfl

end JenkinsMCP
